import Mathlib

/-!
Verification of the ipcam-utilities repository (RTSP capture supervisor,
segment completion watcher, MinIO upload dispatcher, disk retention pass).

Each definition below is a shallow embedding of a function of the Python
source (`app.py`, `tui_app.py`, `limpieza_disco.py`): pure control flow is
translated directly, OS effects (process exits, file sizes, free-space
queries, deletions) are made explicit parameters or recorded in the result.
-/

namespace IpCam

/-! ### Shared retry configuration (app.py lines 32-34, tui_app.py lines 32-34) -/

/-- app.py / tui_app.py: `MAX_RETRIES = 0` (0 = unlimited). -/
def MAX_RETRIES : Nat := 0

/-- app.py / tui_app.py: `RETRY_BACKOFF_FIRST = 5`. -/
def RETRY_BACKOFF_FIRST : Nat := 5

/-- app.py / tui_app.py: `RETRY_BACKOFF_MAX = 60`. -/
def RETRY_BACKOFF_MAX : Nat := 60

/-! ### Supervisor exit handling

`app.py` `main` (lines 343-359) and `tui_app.py` `Recorder.start`
(lines 192-213) both observe the exit of the capture process and decide
whether to stop the supervising loop or to retry.  The decision step is
embedded as a function of the observed return code, the stop flag and the
current retry/backoff state.  A `retry` outcome records the retry counter
after the step, the sleep performed before relaunching and the backoff
value for the next round. -/

inductive SupStep where
  /-- The supervising loop exits; `retries` is the counter's final value. -/
  | stopped (retries : Nat)
  /-- The loop relaunches after sleeping `sleep`; `retries` is the
  incremented counter and `backoffNext` the next backoff value. -/
  | retry (retries : Nat) (sleep : Nat) (backoffNext : Nat)
  deriving DecidableEq

/-- Retry counter carried by a `SupStep`. -/
def SupStep.retriesOf : SupStep → Nat
  | .stopped r => r
  | .retry r _ _ => r

/-- app.py `main`, lines 343-359: after the inner supervision loop exits,
`rc = current_proc.poll()`; if `rc is None and stop_flag` the loop breaks;
otherwise (after logging, for any `rc`, zero included) `retries += 1`,
the loop breaks when a positive `MAX_RETRIES` is exceeded, and otherwise
sleeps `backoff` and sets `backoff = min(backoff * 2, RETRY_BACKOFF_MAX)`
before relaunching. -/
def app_exit_step (rc : Option Int) (stopFlag : Bool) (retries backoff maxRetries : Nat) :
    SupStep :=
  if rc = none ∧ stopFlag = true then .stopped retries
  else
    let r := retries + 1
    if 0 < maxRetries ∧ maxRetries < r then .stopped r
    else .retry r backoff (min (backoff * 2) RETRY_BACKOFF_MAX)

/-- tui_app.py `Recorder.start`, lines 192-213: after `rc = await
self.proc.wait()`, a set stop flag breaks the loop; `rc == 0` emits
`EXITED_OK` and breaks without touching `retries`; any other `rc` does
`retries += 1`, breaks when a positive `MAX_RETRIES` is exceeded, and
otherwise sleeps `backoff` and sets `backoff = min(backoff * 2,
RETRY_BACKOFF_MAX)` before relaunching. -/
def tui_exit_step (rc : Int) (stopFlag : Bool) (retries backoff maxRetries : Nat) :
    SupStep :=
  if stopFlag = true then .stopped retries
  else if rc = 0 then .stopped retries
  else
    let r := retries + 1
    if 0 < maxRetries ∧ maxRetries < r then .stopped r
    else .retry r backoff (min (backoff * 2) RETRY_BACKOFF_MAX)

/-! ### Backoff sequence

Both supervisors start with `backoff = RETRY_BACKOFF_FIRST` and, after each
retry sleep, update `backoff = min(backoff * 2, RETRY_BACKOFF_MAX)`
(app.py line 359, tui_app.py line 213).  `backoff_at first cap n` is the
backoff value after `n` updates, so the Nth retry sleeps
`backoff_at first cap (n - 1)`. -/

def backoff_at (first cap : Nat) : Nat → Nat
  | 0 => first
  | n + 1 => min (backoff_at first cap n * 2) cap

/-- Sleep duration of the Nth retry (N counted from 1): the backoff value
after N - 1 doubling updates. -/
def nth_retry_sleep (first cap n : Nat) : Nat := backoff_at first cap (n - 1)

/-! ### Completion watcher (app.py `wait_until_file_complete`, lines 107-140)

The loop is driven by one observation of the file per poll: `none` means
`os.path.exists(path)` is false at that poll, `some s` means the file
exists with size `s`.  The embedding consumes a finite observation list;
exhausting it corresponds to the loop still running when `stop_flag` is
raised, i.e. the cancelled return.  The result pairs the number of polls
performed with the outcome. -/

inductive WaitOutcome where
  | stable
  | vanished
  | cancelled
  deriving DecidableEq

/-- app.py lines 113-137: state `last_size = -1`, `stable_count = 0`; each
poll returns vanished when the path is gone, increments `stable_count`
when the size equals `last_size` and is positive (returning stable once it
reaches `stable_checks`), and otherwise resets `stable_count` to 0 and
records the new size. -/
def wait_loop (stable_checks : Nat) :
    List (Option Int) → Int → Nat → Nat → Nat × WaitOutcome
  | [], _, _, polls => (polls, .cancelled)
  | obs :: rest, last_size, stable_count, polls =>
    match obs with
    | none => (polls + 1, .vanished)
    | some size =>
      if size = last_size ∧ 0 < size then
        let sc := stable_count + 1
        if stable_checks ≤ sc then (polls + 1, .stable)
        else wait_loop stable_checks rest last_size sc (polls + 1)
      else wait_loop stable_checks rest size 0 (polls + 1)

/-- app.py `wait_until_file_complete(path, check_interval=10,
stable_checks=3)` over a given sequence of per-poll observations. -/
def wait_until_file_complete (obs : List (Option Int)) (stable_checks : Nat := 3) :
    Nat × WaitOutcome :=
  wait_loop stable_checks obs (-1) 0 0

/-! ### Upload dispatcher (app.py `upload_to_minio`, lines 159-198)

The filename is split on `_`, field 1 is the date `YYYY-MM-DD`, which is
split on `-` into exactly three components (any other shape raises and is
caught, aborting the dispatch).  The month number is mapped through
`MESES_ES`, falling back to the raw string when absent.  The filesystem
wait and the store transfer are abstracted as boolean outcomes; the list
of uploaded object keys is the recorded store effect. -/

/-- app.py lines 47-60: Spanish month names keyed by two-digit month. -/
def MESES_ES : List (String × String) :=
  [("01", "enero"), ("02", "febrero"), ("03", "marzo"), ("04", "abril"),
   ("05", "mayo"), ("06", "junio"), ("07", "julio"), ("08", "agosto"),
   ("09", "septiembre"), ("10", "octubre"), ("11", "noviembre"),
   ("12", "diciembre")]

/-- Python `s.split(sep)` for a one-character separator: cut at every
occurrence, keeping empty pieces; the result is never empty. -/
def pySplitAux (p : Char → Bool) : List Char → List Char → List String
  | [], acc => [String.mk acc.reverse]
  | c :: cs, acc =>
    if p c then String.mk acc.reverse :: pySplitAux p cs []
    else pySplitAux p cs (c :: acc)

/-- Python `s.split(sep)` over the characters of `s`. -/
def pySplit (p : Char → Bool) (s : String) : List String :=
  pySplitAux p s.toList []

/-- app.py lines 173-180: `parts = filename.split("_")`; `fecha = parts[1]`
(IndexError when fewer than two fields); `año, mes_num, dia =
fecha.split("-")` (ValueError unless exactly three components); any
exception aborts the parse. -/
def parse_fecha (filename : String) : Option (String × String × String) :=
  match (pySplit (fun c => c = '_') filename).get? 1 with
  | none => none
  | some fecha =>
    match pySplit (fun c => c = '-') fecha with
    | [anio, mes_num, dia] => some (anio, mes_num, dia)
    | _ => none

/-- app.py line 182: `key = f"{año}/{mes}/{dia}/{filename}"` with
`mes = MESES_ES.get(mes_num, mes_num)` (line 177). -/
def upload_key (anio mes_num dia filename : String) : String :=
  anio ++ "/" ++ ((MESES_ES.lookup mes_num).getD mes_num) ++ "/" ++ dia ++ "/" ++ filename

inductive UploadOutcome where
  | uploaded
  | failedIncomplete
  | failedUnparseable
  | failedStore
  deriving DecidableEq

/-- app.py `upload_to_minio(filepath)`: wait for the file to stop growing
(`waitOk` is the result of `wait_until_file_complete`, lines 168-170);
parse the date from the filename, aborting on failure (lines 173-180);
upload one object under `upload_key` (lines 182-187), `storeOk` recording
whether `s3.upload_fileobj` succeeds.  The second component lists the
object keys written to the store. -/
def upload_to_minio (waitOk storeOk : Bool) (filename : String) :
    UploadOutcome × List String :=
  if waitOk = false then (.failedIncomplete, [])
  else
    match parse_fecha filename with
    | none => (.failedUnparseable, [])
    | some (anio, mes_num, dia) =>
      if storeOk then (.uploaded, [upload_key anio mes_num dia filename])
      else (.failedStore, [])

/-! ### Process termination (app.py `terminate_ffmpeg`, tui_app.py `Recorder.stop`)

A process handle is abstracted by whether it is still running and whether
it exits within the graceful-wait timeout once asked to terminate.  The
actions performed on the OS process are recorded in order. -/

structure ProcH where
  /-- `proc.poll() is None` / `proc.returncode is None`. -/
  running : Bool
  /-- Whether the graceful wait with the 10-second timeout completes
  before the timeout expires. -/
  exitsWithinTimeout : Bool
  deriving DecidableEq

inductive TermAct where
  | terminate
  | wait (timeout : Nat)
  | kill
  deriving DecidableEq

/-- app.py lines 281-289: `if proc and proc.poll() is None:` then
`proc.terminate()`, `proc.wait(timeout=10)`, and on `TimeoutExpired`
`proc.kill()`. -/
def terminate_ffmpeg (p : Option ProcH) : List TermAct :=
  match p with
  | none => []
  | some proc =>
    if proc.running then
      if proc.exitsWithinTimeout then [.terminate, .wait 10]
      else [.terminate, .wait 10, .kill]
    else []

/-- tui_app.py `Recorder`: the stop flag and the optional handle to the
active process. -/
structure Recorder where
  stop_flag : Bool
  proc : Option ProcH
  deriving DecidableEq

/-- tui_app.py `Recorder.stop`, lines 223-249: return immediately when
`stop_flag` is already set; otherwise set it, and when a process is held
and still running, `terminate()`, wait up to 10 seconds, and on timeout
`kill()` followed by a reaping wait of up to 5 seconds; finally clear
`self.proc`. -/
def Recorder.stop (r : Recorder) : Recorder × List TermAct :=
  if r.stop_flag then (r, [])
  else
    match r.proc with
    | none => (⟨true, none⟩, [])
    | some p =>
      if p.running then
        if p.exitsWithinTimeout then (⟨true, none⟩, [.terminate, .wait 10])
        else (⟨true, none⟩, [.terminate, .wait 10, .kill, .wait 5])
      else (⟨true, none⟩, [])

/-! ### Retention pass (limpieza_disco.py)

A file of the scanned tree is abstracted by its final path component, its
modification time, its size, and two flags recording the filesystem race
outcomes the code handles: `vanished` (the `f.stat()` at line 166 raises
`FileNotFoundError`) and `unlinkOk` (the `f.unlink()` at line 175
succeeds).  Free-space queries are an oracle `stats` mapping the list of
files deleted so far (in deletion order) to `(free_gb, free_percent)`. -/

structure LFile where
  name : String
  mtime : Int
  size : Nat
  vanished : Bool
  unlinkOk : Bool
  deriving DecidableEq

/-- Index of the last `.` in a character list, if any. -/
def rfindDot : List Char → Option Nat
  | [] => none
  | c :: cs =>
    match rfindDot cs with
    | some i => some (i + 1)
    | none => if c = '.' then some 0 else none

/-- pathlib `PurePath.suffix` of a final path component: the substring
from the last `.` on, but only when that dot is neither the first nor the
last character; otherwise the empty string. -/
def pySuffix (name : String) : String :=
  let cs := name.toList
  match rfindDot cs with
  | some i => if 0 < i ∧ i + 1 < cs.length then String.mk (cs.drop i) else ""
  | none => ""

/-- Python `s.lstrip(".")`: drop every leading dot. -/
def lstripDot (s : String) : String :=
  String.mk (s.toList.dropWhile (fun c => c = '.'))

/-- Python `s.lower()` (ASCII case folding, character by character). -/
def pyLower (s : String) : String :=
  String.mk (s.toList.map Char.toLower)

/-- limpieza_disco.py line 62 / line 66: an extension normalized by
`.lower().lstrip(".")`. -/
def ext_key (e : String) : String := lstripDot (pyLower e)

/-- limpieza_disco.py `collect_files` line 66 test:
`p.suffix.lower().lstrip(".") in exts_lower`. -/
def eligible_ext (name : String) (exts : List String) : Bool :=
  (exts.map ext_key).contains (ext_key (pySuffix name))

/-- limpieza_disco.py `collect_files` (lines 58-68): every file under the
root whose normalized suffix is among the allowed extensions, in
traversal order. -/
def collect_files (tree : List LFile) (exts : List String) : List LFile :=
  tree.filter (fun f => eligible_ext f.name exts)

/-- limpieza_disco.py `needs_cleanup` (lines 93-100): cleanup is required
when a positive percent threshold is violated or a positive GB threshold
is violated. -/
def needs_cleanup (free_percent free_gb min_percent min_gb : ℚ) : Bool :=
  (decide (0 < min_percent) && decide (free_percent < min_percent)) ||
  (decide (0 < min_gb) && decide (free_gb < min_gb))

/-- limpieza_disco.py line 146 sort key: ascending modification time
(`files.sort(key=lambda p: p.stat().st_mtime)`). -/
def mtimeLE (x y : LFile) : Prop := x.mtime ≤ y.mtime

instance : DecidableRel mtimeLE :=
  fun x y => (inferInstance : Decidable (x.mtime ≤ y.mtime))

instance : IsTotal LFile mtimeLE :=
  ⟨fun x y => Int.le_total x.mtime y.mtime⟩

instance : IsTrans LFile mtimeLE :=
  ⟨fun _ _ _ hab hbc => le_trans hab hbc⟩

/-- limpieza_disco.py command-line configuration (lines 104-115): the
fields of the retention pass that its control flow reads. -/
structure RetArgs where
  exts : List String
  min_free_percent : ℚ
  min_free_gb : ℚ
  max_delete : Nat
  dry_run : Bool

/-- Everything a retention pass records: files actually deleted (in
deletion order), files reported by the dry-run simulation (in report
order), files whose parent-directory pruning ran, and whether the
`max-delete` cap warning fired. -/
structure PassOutput where
  deleted : List LFile
  simulated : List LFile
  pruned : List LFile
  capWarn : Bool
  deriving DecidableEq

/-- limpieza_disco.py `main`, deletion loop (lines 154-187): for each
candidate in order, stop with a warning once `deleted_count >=
max_delete`; re-query free space and stop when thresholds are satisfied;
skip files whose `stat` raises `FileNotFoundError`; in dry-run mode log
the candidate without mutating; otherwise `unlink` (a failure is logged
and skipped, the counter untouched), count the deletion and prune empty
parent directories.  `del`, `sim` and `pr` accumulate in reverse. -/
def cleanup_loop (a : RetArgs) (stats : List LFile → ℚ × ℚ) :
    List LFile → List LFile → List LFile → List LFile → PassOutput
  | [], del, sim, pr => ⟨del.reverse, sim.reverse, pr.reverse, false⟩
  | f :: fs, del, sim, pr =>
    if a.max_delete ≤ del.length then ⟨del.reverse, sim.reverse, pr.reverse, true⟩
    else
      let s := stats del.reverse
      if needs_cleanup s.2 s.1 a.min_free_percent a.min_free_gb = false then
        ⟨del.reverse, sim.reverse, pr.reverse, false⟩
      else if f.vanished then cleanup_loop a stats fs del sim pr
      else if a.dry_run then cleanup_loop a stats fs del (f :: sim) pr
      else if f.unlinkOk then cleanup_loop a stats fs (f :: del) sim (f :: pr)
      else cleanup_loop a stats fs del sim pr

/-- Result of one whole retention pass. -/
structure MainResult where
  /-- Thresholds were already satisfied at the initial analysis. -/
  earlyNoCleanup : Bool
  /-- No file matched the extension filter. -/
  noFiles : Bool
  /-- The ordered candidate list of step 2 (collect, then sort ascending
  by mtime); empty when the pass returned before computing it. -/
  candidates : List LFile
  deleted : List LFile
  simulated : List LFile
  pruned : List LFile
  capWarn : Bool
  /-- The final-summary warning that the threshold is still unmet. -/
  thresholdWarn : Bool
  deriving DecidableEq

/-- limpieza_disco.py `main` (lines 117-195), from the initial space
analysis on: return with no deletion when thresholds are met (lines
139-142); collect eligible files and sort them oldest-first by mtime
(lines 145-146); return when none match (lines 148-151); run the deletion
loop; finally warn when the re-queried space still fails the thresholds
(lines 193-194). -/
def limpieza_main (a : RetArgs) (stats : List LFile → ℚ × ℚ) (tree : List LFile) :
    MainResult :=
  let s0 := stats []
  if needs_cleanup s0.2 s0.1 a.min_free_percent a.min_free_gb = false then
    ⟨true, false, [], [], [], [], false, false⟩
  else
    let files := List.insertionSort mtimeLE (collect_files tree a.exts)
    if files.isEmpty then ⟨false, true, files, [], [], [], false, false⟩
    else
      let out := cleanup_loop a stats files [] [] []
      let sF := stats out.deleted
      ⟨false, false, files, out.deleted, out.simulated, out.pruned, out.capWarn,
        needs_cleanup sF.2 sF.1 a.min_free_percent a.min_free_gb⟩

/-! ### Concrete inputs used to exercise the retention pass -/

/-- Free-space oracle of a filesystem so full that the thresholds stay
unmet no matter what is deleted: 0 GB free, 0 percent free. -/
def stats_unmet : List LFile → ℚ × ℚ := fun _ => (0, 0)

/-- limpieza_disco.py `DEFAULT_EXTS`. -/
def demo_exts : List String := ["mkv", "mp4", "avi"]

/-- An eligible, present, deletable file with modification time `i`. -/
def demo_file (i : Nat) : LFile := ⟨"a.mp4", (i : Int), 1, false, true⟩

/-- A scanned tree of 1000 eligible files with increasing mtimes. -/
def demo_tree_1000 : List LFile := (List.range 1000).map demo_file

/-- Default thresholds (15 percent, GB threshold disabled), the default
500-file safety cap, no dry run. -/
def retargs_cap500 : RetArgs := ⟨demo_exts, 15, 0, 500, false⟩

/-- Default thresholds, `--max-delete 0`, dry run. -/
def retargs_dry0 : RetArgs := ⟨demo_exts, 15, 0, 0, true⟩

/-- Default thresholds, `--max-delete 0`, real run. -/
def retargs_real0 : RetArgs := ⟨demo_exts, 15, 0, 0, false⟩

/-- Default thresholds, default 500-file cap, dry run. -/
def retargs_dry500 : RetArgs := ⟨demo_exts, 15, 0, 500, true⟩

/-- Default thresholds, `--max-delete 1`, dry run. -/
def retargs_dry1 : RetArgs := ⟨demo_exts, 15, 0, 1, true⟩

/-- A second eligible, present, deletable file. -/
def demo_file_b : LFile := ⟨"b.mp4", 5, 2, false, true⟩

/-! ### Helper lemmas about the deletion loop -/

theorem cleanup_deleted_le (a : RetArgs) (stats : List LFile → ℚ × ℚ)
    (fs : List LFile) :
    ∀ del sim pr : List LFile, del.length ≤ a.max_delete →
      (cleanup_loop a stats fs del sim pr).deleted.length ≤ a.max_delete := by
  induction fs with
  | nil => intro del sim pr h; simpa [cleanup_loop] using h
  | cons f fs ih =>
    intro del sim pr h
    simp only [cleanup_loop]
    split
    · simpa using h
    · split
      · simpa using h
      · split
        · exact ih del sim pr h
        · split
          · exact ih del (f :: sim) pr h
          · split
            · exact ih (f :: del) sim (f :: pr) (by simp only [List.length_cons]; omega)
            · exact ih del sim pr h

theorem cleanup_deleted_sublist (a : RetArgs) (stats : List LFile → ℚ × ℚ)
    (fs : List LFile) :
    ∀ del sim pr : List LFile,
      ∃ d, (cleanup_loop a stats fs del sim pr).deleted = del.reverse ++ d ∧
        d.Sublist fs := by
  induction fs with
  | nil => intro del sim pr; exact ⟨[], by simp [cleanup_loop], List.Sublist.refl _⟩
  | cons f fs ih =>
    intro del sim pr
    simp only [cleanup_loop]
    split
    · exact ⟨[], by simp, List.nil_sublist _⟩
    · split
      · exact ⟨[], by simp, List.nil_sublist _⟩
      · split
        · obtain ⟨d, hd, hs⟩ := ih del sim pr
          exact ⟨d, hd, hs.cons f⟩
        · split
          · obtain ⟨d, hd, hs⟩ := ih del (f :: sim) pr
            exact ⟨d, hd, hs.cons f⟩
          · split
            · obtain ⟨d, hd, hs⟩ := ih (f :: del) sim (f :: pr)
              exact ⟨f :: d, by rw [hd]; simp, hs.cons₂ f⟩
            · obtain ⟨d, hd, hs⟩ := ih del sim pr
              exact ⟨d, hd, hs.cons f⟩

theorem cleanup_dry_pure (a : RetArgs) (stats : List LFile → ℚ × ℚ)
    (hdry : a.dry_run = true) (fs : List LFile) :
    ∀ del sim pr : List LFile,
      (cleanup_loop a stats fs del sim pr).deleted = del.reverse ∧
      (cleanup_loop a stats fs del sim pr).pruned = pr.reverse := by
  induction fs with
  | nil => intro del sim pr; simp [cleanup_loop]
  | cons f fs ih =>
    intro del sim pr
    simp only [cleanup_loop]
    by_cases hc : a.max_delete ≤ del.length
    · rw [if_pos hc]; exact ⟨rfl, rfl⟩
    · rw [if_neg hc]
      by_cases hn : needs_cleanup (stats del.reverse).2 (stats del.reverse).1
          a.min_free_percent a.min_free_gb = false
      · rw [if_pos hn]; exact ⟨rfl, rfl⟩
      · rw [if_neg hn]
        by_cases hvf : f.vanished = true
        · rw [if_pos hvf]; exact ih del sim pr
        · rw [if_neg hvf, if_pos hdry]; exact ih del (f :: sim) pr

theorem cleanup_dry_enum (a : RetArgs) (stats : List LFile → ℚ × ℚ)
    (hdry : a.dry_run = true) (hmax : 0 < a.max_delete)
    (hn : needs_cleanup (stats []).2 (stats []).1 a.min_free_percent a.min_free_gb = true)
    (fs : List LFile) (hv : ∀ f ∈ fs, f.vanished = false) :
    ∀ sim pr : List LFile,
      (cleanup_loop a stats fs [] sim pr).simulated = sim.reverse ++ fs ∧
      (cleanup_loop a stats fs [] sim pr).capWarn = false := by
  induction fs with
  | nil => intro sim pr; simp [cleanup_loop]
  | cons f fs ih =>
    intro sim pr
    have hv' : ∀ g ∈ fs, g.vanished = false := fun g hg => hv g (List.mem_cons_of_mem f hg)
    have hvf : f.vanished = false := hv f (List.mem_cons_self f fs)
    simp only [cleanup_loop, List.length_nil, List.reverse_nil]
    rw [if_neg (by omega), if_neg (by simp [hn]), if_neg (by simp [hvf]), if_pos hdry]
    have := ih hv' (f :: sim) pr
    simpa using this

/-! ### Helper lemmas about the whole retention pass -/

theorem limpieza_deleted_le (a : RetArgs) (stats : List LFile → ℚ × ℚ)
    (tree : List LFile) :
    (limpieza_main a stats tree).deleted.length ≤ a.max_delete := by
  unfold limpieza_main
  dsimp only
  split
  · simp
  · split
    · simp
    · exact cleanup_deleted_le a stats _ [] [] [] (by simp)

theorem limpieza_deleted_sublist (a : RetArgs) (stats : List LFile → ℚ × ℚ)
    (tree : List LFile) :
    (limpieza_main a stats tree).deleted.Sublist (limpieza_main a stats tree).candidates := by
  unfold limpieza_main
  dsimp only
  split
  · simp
  · split
    · simp
    · obtain ⟨d, hd, hs⟩ := cleanup_deleted_sublist a stats
        (List.insertionSort mtimeLE (collect_files tree a.exts)) [] [] []
      simp only [List.reverse_nil, List.nil_append] at hd
      simpa [hd] using hs

theorem limpieza_candidates_sorted (a : RetArgs) (stats : List LFile → ℚ × ℚ)
    (tree : List LFile) :
    (limpieza_main a stats tree).candidates.Pairwise mtimeLE := by
  unfold limpieza_main
  dsimp only
  split
  · simp
  · split
    · exact List.sorted_insertionSort mtimeLE (collect_files tree a.exts)
    · exact List.sorted_insertionSort mtimeLE (collect_files tree a.exts)

theorem limpieza_candidates_mem (a : RetArgs) (stats : List LFile → ℚ × ℚ)
    (tree : List LFile) (f : LFile)
    (hf : f ∈ (limpieza_main a stats tree).candidates) :
    eligible_ext f.name a.exts = true ∧ f ∈ tree := by
  unfold limpieza_main at hf
  dsimp only at hf
  split at hf
  · simp at hf
  · split at hf
    · simp at hf
      have hm : f ∈ collect_files tree a.exts := by
        rw [← List.mem_insertionSort mtimeLE]
        simp [hf]
      obtain ⟨hft, hfe⟩ := List.mem_filter.mp hm
      exact ⟨hfe, hft⟩
    · have hm : f ∈ collect_files tree a.exts :=
        (List.mem_insertionSort mtimeLE).mp hf
      obtain ⟨hft, hfe⟩ := List.mem_filter.mp hm
      exact ⟨hfe, hft⟩

/-! ### Helper lemmas: backoff formula and watcher plateau -/

theorem backoff_at_eq (first cap : Nat) (h : first ≤ cap) :
    ∀ n, backoff_at first cap n = min (first * 2 ^ n) cap := by
  intro n
  induction n with
  | zero => simp [backoff_at, Nat.min_eq_left h]
  | succ n ih =>
    have h2 : first * 2 ^ (n + 1) = first * 2 ^ n * 2 := by ring
    rw [backoff_at, ih, h2]
    omega

theorem wait_loop_const (k : Nat) (s : Int) (hs : 0 < s) :
    ∀ (j c polls : Nat), c + j = k → 1 ≤ j →
      wait_loop k (List.replicate j (some s)) s c polls = (polls + j, .stable) := by
  intro j
  induction j with
  | zero => omega
  | succ j ih =>
    intro c polls hck _
    simp only [List.replicate_succ, wait_loop]
    rw [if_pos (⟨by simp, hs⟩ : _ ∧ 0 < s)]
    by_cases hj : j = 0
    · subst hj
      rw [if_pos (by omega)]
    · rw [if_neg (by omega)]
      rw [ih (c + 1) (polls + 1) (by omega) (by omega)]
      congr 1
      omega

/-- A strictly positive size observed identically on every one of
`k + 1` consecutive polls makes the watcher return stable on the last of
those polls: the first poll only records the size, the following `k`
confirm it. -/
theorem wait_stable_after_succ (s : Int) (hs : 0 < s) (k : Nat) (hk : 1 ≤ k) :
    wait_until_file_complete (List.replicate (k + 1) (some s)) k = (k + 1, .stable) := by
  unfold wait_until_file_complete
  simp only [List.replicate_succ, wait_loop]
  rw [if_neg (by omega)]
  rw [wait_loop_const k s hs k 0 1 (by omega) hk]
  congr 1
  omega

theorem limpieza_candidates_dry_irrel (a : RetArgs) (b : Bool)
    (stats : List LFile → ℚ × ℚ) (tree : List LFile) :
    (limpieza_main ⟨a.exts, a.min_free_percent, a.min_free_gb, a.max_delete, b⟩ stats
        tree).candidates =
      (limpieza_main a stats tree).candidates := by
  unfold limpieza_main
  dsimp only
  by_cases h0 : needs_cleanup (stats []).2 (stats []).1 a.min_free_percent a.min_free_gb = false
  · rw [if_pos h0, if_pos h0]
  · rw [if_neg h0, if_neg h0]
    by_cases hfe : (List.insertionSort mtimeLE (collect_files tree a.exts)).isEmpty = true
    · rw [if_pos hfe, if_pos hfe]
    · rw [if_neg hfe, if_neg hfe]

theorem limpieza_dry_sim_eq_candidates (a : RetArgs) (stats : List LFile → ℚ × ℚ)
    (tree : List LFile) (hdry : a.dry_run = true) (hmax : 0 < a.max_delete)
    (hv : ∀ f ∈ tree, f.vanished = false) :
    (limpieza_main a stats tree).simulated = (limpieza_main a stats tree).candidates ∧
    (limpieza_main a stats tree).capWarn = false := by
  unfold limpieza_main
  dsimp only
  by_cases h0 : needs_cleanup (stats []).2 (stats []).1 a.min_free_percent a.min_free_gb = false
  · rw [if_pos h0]; exact ⟨rfl, rfl⟩
  · rw [if_neg h0]
    by_cases hfe : (List.insertionSort mtimeLE (collect_files tree a.exts)).isEmpty = true
    · rw [if_pos hfe]
      refine ⟨?_, rfl⟩
      dsimp only
      rw [List.isEmpty_iff.mp hfe]
    · rw [if_neg hfe]
      have hn : needs_cleanup (stats []).2 (stats []).1 a.min_free_percent a.min_free_gb
          = true := by
        simpa using h0
      have hvfiles : ∀ f ∈ List.insertionSort mtimeLE (collect_files tree a.exts),
          f.vanished = false := by
        intro f hf
        exact hv f (List.mem_filter.mp ((List.mem_insertionSort mtimeLE).mp hf)).1
      obtain ⟨hsim, hcap⟩ := cleanup_dry_enum a stats hdry hmax hn _ hvfiles [] []
      exact ⟨by simpa using hsim, hcap⟩

/-! ### Claim theorems -/

set_option maxRecDepth 10000

/-- C1, counterexample: in app.py `main`, a capture process exiting with
code 0 while no stop was requested does NOT stop the supervisor: with
`retries = 0` and `backoff = 5`, the step increments the retry counter to
1 and relaunches after sleeping 5 seconds. -/
theorem C1_cex :
    app_exit_step (some 0) false 0 5 0 = SupStep.retry 1 5 10 ∧
    SupStep.retriesOf (app_exit_step (some 0) false 0 5 0) = 1 := by
  decide

/-- C1 (amended): in the TUI supervisor (tui_app.py `Recorder.start`), an
exit with code 0 and no stop request stops the loop without incrementing
the retry counter and without relaunching, and any non-zero exit
increments the counter by exactly one; the plain supervisor (app.py
`main`) instead increments the retry counter by one on every observed
exit, code 0 included. -/
theorem C1_spec (rc : Int) (stopFlag : Bool) (retries backoff maxRetries : Nat) :
    (stopFlag = false →
      tui_exit_step 0 stopFlag retries backoff maxRetries = SupStep.stopped retries) ∧
    (stopFlag = false → rc ≠ 0 →
      SupStep.retriesOf (tui_exit_step rc stopFlag retries backoff maxRetries) =
        retries + 1) ∧
    (∀ orc : Option Int, ¬(orc = none ∧ stopFlag = true) →
      SupStep.retriesOf (app_exit_step orc stopFlag retries backoff maxRetries) =
        retries + 1) := by
  refine ⟨?_, ?_, ?_⟩
  · intro h
    simp [tui_exit_step, h]
  · intro h hrc
    simp only [tui_exit_step, h]
    rw [if_neg (by simp), if_neg hrc]
    split <;> simp [SupStep.retriesOf]
  · intro orc h
    simp only [app_exit_step]
    rw [if_neg h]
    split <;> simp [SupStep.retriesOf]

/-- C1 witness: the amended statement evaluated with `retries = 3`,
`backoff = 20`, unlimited retry budget. -/
theorem C1_witness :
    tui_exit_step 0 false 3 20 0 = SupStep.stopped 3 ∧
    SupStep.retriesOf (tui_exit_step 7 false 3 20 0) = 4 ∧
    SupStep.retriesOf (app_exit_step (some 0) false 3 20 0) = 4 := by
  obtain ⟨h1, h2, h3⟩ := C1_spec 7 false 3 20 0
  exact ⟨h1 rfl, h2 rfl (by decide), h3 (some 0) (by decide)⟩

/-- C2: a retention pass never deletes more than `max_delete` files, for
every configuration, free-space oracle and input tree; and on 1000
eligible files with the 500-file cap and thresholds that stay unmet,
exactly 500 files are deleted, the cap warning fires and the final
threshold-unmet warning is produced. -/
theorem C2_spec :
    (∀ (a : RetArgs) (stats : List LFile → ℚ × ℚ) (tree : List LFile),
      (limpieza_main a stats tree).deleted.length ≤ a.max_delete) ∧
    demo_tree_1000.length = 1000 ∧
    demo_tree_1000.all (fun f => eligible_ext f.name retargs_cap500.exts) = true ∧
    (limpieza_main retargs_cap500 stats_unmet demo_tree_1000).deleted.length = 500 ∧
    (limpieza_main retargs_cap500 stats_unmet demo_tree_1000).capWarn = true ∧
    (limpieza_main retargs_cap500 stats_unmet demo_tree_1000).thresholdWarn = true := by
  refine ⟨limpieza_deleted_le, ?_⟩
  decide

/-- C3, counterexample: with `stable_checks = 3`, the observed size
sequence `[10, 10, 10]` does not make `wait_until_file_complete` return
stable within its 3 polls, and `[10, 20, 20, 20]` does not return stable
within its 4 polls: the first poll of a size only initializes `last_size`
and does not count as a stability confirmation. -/
theorem C3_cex :
    wait_until_file_complete [some 10, some 10, some 10] 3 =
      (3, WaitOutcome.cancelled) ∧
    wait_until_file_complete [some 10, some 20, some 20, some 20] 3 =
      (4, WaitOutcome.cancelled) := by
  decide

/-- C3 (amended): with `stable_checks = 3`, the sequence
`[10, 10, 10, 10]` returns stable after exactly 4 polls and
`[10, 20, 20, 20, 20]` after exactly 5 polls (the growth at poll 2 resets
the counter); in general a strictly positive size repeated on
`k + 1` consecutive polls returns stable on poll `k + 1`. -/
theorem C3_spec :
    wait_until_file_complete [some 10, some 10, some 10, some 10] 3 =
      (4, WaitOutcome.stable) ∧
    wait_until_file_complete [some 10, some 20, some 20, some 20, some 20] 3 =
      (5, WaitOutcome.stable) ∧
    (∀ (s : Int) (k : Nat), 0 < s → 1 ≤ k →
      wait_until_file_complete (List.replicate (k + 1) (some s)) k =
        (k + 1, WaitOutcome.stable)) := by
  exact ⟨by decide, by decide, fun s k hs hk => wait_stable_after_succ s hs k hk⟩

/-- C3 witness: the general plateau statement evaluated at size 10 with
the default `stable_checks = 3`. -/
theorem C3_witness :
    wait_until_file_complete (List.replicate 4 (some 10)) 3 = (4, WaitOutcome.stable) :=
  C3_spec.2.2 10 3 (by decide) (by decide)

/-- C4: the Nth retry sleep equals `min(first * 2 ^ (N - 1), cap)` and
never exceeds the cap (for `first ≤ cap`); with the configured
`RETRY_BACKOFF_FIRST = 5` and `RETRY_BACKOFF_MAX = 60` the successive
sleeps are 5, 10, 20, 40, 60, 60; and each supervisor's retryable-exit
step sleeps the current backoff and doubles it capped, i.e. applies one
`backoff_at` update. -/
theorem C4_spec :
    (∀ first cap n : Nat, first ≤ cap → 1 ≤ n →
      nth_retry_sleep first cap n = min (first * 2 ^ (n - 1)) cap ∧
      nth_retry_sleep first cap n ≤ cap) ∧
    (List.range 6).map
        (fun i => nth_retry_sleep RETRY_BACKOFF_FIRST RETRY_BACKOFF_MAX (i + 1)) =
      [5, 10, 20, 40, 60, 60] ∧
    (∀ (rc : Int) (retries backoff : Nat), rc ≠ 0 →
      tui_exit_step rc false retries backoff MAX_RETRIES =
        SupStep.retry (retries + 1) backoff (backoff_at backoff RETRY_BACKOFF_MAX 1)) ∧
    (∀ (rc : Int) (retries backoff : Nat),
      app_exit_step (some rc) false retries backoff MAX_RETRIES =
        SupStep.retry (retries + 1) backoff (backoff_at backoff RETRY_BACKOFF_MAX 1)) := by
  refine ⟨?_, by decide, ?_, ?_⟩
  · intro first cap n hfc hn
    have h := backoff_at_eq first cap hfc (n - 1)
    exact ⟨h, by rw [nth_retry_sleep, h]; exact Nat.min_le_right _ _⟩
  · intro rc retries backoff hrc
    simp [tui_exit_step, hrc, MAX_RETRIES, backoff_at]
  · intro rc retries backoff
    simp [app_exit_step, MAX_RETRIES, backoff_at]

/-- C4 witness: the formula evaluated at the 5th retry with the
configured first backoff and cap. -/
theorem C4_witness :
    nth_retry_sleep 5 60 5 = min (5 * 2 ^ 4) 60 ∧ nth_retry_sleep 5 60 5 ≤ 60 :=
  C4_spec.1 5 60 5 (by decide) (by decide)

/-- C5: a dispatch of a stable file uploads at most one object; when the
date components parse from the filename (and the store call succeeds),
exactly one object is uploaded under `upload_key`, whose month component
is the localized Spanish month name whenever the month number is in
`MESES_ES`; when parsing fails the dispatch aborts as unparseable and no
object is uploaded. -/
theorem C5_spec (filename : String) (storeOk : Bool) :
    (upload_to_minio true storeOk filename).2.length ≤ 1 ∧
    (∀ anio mes dia : String, parse_fecha filename = some (anio, mes, dia) →
      storeOk = true →
      upload_to_minio true storeOk filename =
        (UploadOutcome.uploaded, [upload_key anio mes dia filename])) ∧
    (parse_fecha filename = none →
      upload_to_minio true storeOk filename = (UploadOutcome.failedUnparseable, [])) ∧
    (∀ anio mes dia nombre : String, MESES_ES.lookup mes = some nombre →
      upload_key anio mes dia filename =
        anio ++ "/" ++ nombre ++ "/" ++ dia ++ "/" ++ filename) := by
  refine ⟨?_, ?_, ?_, ?_⟩
  · cases hp : parse_fecha filename with
    | none => simp [upload_to_minio, hp]
    | some t =>
      obtain ⟨anio, mes, dia⟩ := t
      cases storeOk <;> simp [upload_to_minio, hp]
  · intro anio mes dia hp hs
    subst hs
    simp [upload_to_minio, hp]
  · intro hp
    simp [upload_to_minio, hp]
  · intro anio mes dia nombre hm
    simp [upload_key, hm]

/-- C5 witness: the well-formed filename of the source comment
(app.py line 172) parses and uploads exactly one object under the
year / Spanish month / day / filename key. -/
theorem C5_witness :
    parse_fecha "Lunes_2025-01-01_13-00-00.mp4" = some ("2025", "01", "01") ∧
    upload_to_minio true true "Lunes_2025-01-01_13-00-00.mp4" =
      (UploadOutcome.uploaded, ["2025/enero/01/Lunes_2025-01-01_13-00-00.mp4"]) := by
  have h := (C5_spec "Lunes_2025-01-01_13-00-00.mp4" true).2.1 "2025" "01" "01"
    (by decide) rfl
  exact ⟨by decide, h.trans (by decide)⟩

/-- C6: every file deleted by a retention pass has an eligible extension,
and the deletion sequence is nondecreasing in modification time (the
oldest-first order is the sole eviction ordering). -/
theorem C6_spec (a : RetArgs) (stats : List LFile → ℚ × ℚ) (tree : List LFile) :
    (∀ f ∈ (limpieza_main a stats tree).deleted, eligible_ext f.name a.exts = true) ∧
    (limpieza_main a stats tree).deleted.Pairwise mtimeLE := by
  constructor
  · intro f hf
    exact (limpieza_candidates_mem a stats tree f
      ((limpieza_deleted_sublist a stats tree).subset hf)).1
  · exact (limpieza_candidates_sorted a stats tree).sublist
      (limpieza_deleted_sublist a stats tree)

/-- C6 witness: a pass over a single eligible file deletes it, and the
eligibility and ordering facts hold on that run. -/
theorem C6_witness :
    eligible_ext (demo_file 0).name retargs_cap500.exts = true ∧
    (limpieza_main retargs_cap500 stats_unmet [demo_file 0]).deleted.Pairwise mtimeLE := by
  obtain ⟨h1, h2⟩ := C6_spec retargs_cap500 stats_unmet [demo_file 0]
  exact ⟨h1 (demo_file 0) (by decide), h2⟩

/-- C7, counterexample: with `--max-delete 0` and thresholds unmet, a
dry-run pass reports no candidate at all (the cap check
`deleted_count >= max_delete` fires on entry), while the non-dry-run pass
over the same input computes the one-element candidate list, so the
reported and computed candidate lists differ. -/
theorem C7_cex :
    (limpieza_main retargs_dry0 stats_unmet [demo_file 0]).simulated ≠
      (limpieza_main retargs_real0 stats_unmet [demo_file 0]).candidates := by
  decide

/-- C7 (amended): a dry-run pass never deletes a file and never prunes a
directory, for every configuration and input; and provided the deletion
cap is positive and no candidate vanishes between listing and its stat,
the ordered candidate list it reports is identical to the ordered
candidate list the non-dry-run pass computes over the same input. -/
theorem C7_spec (a : RetArgs) (stats : List LFile → ℚ × ℚ) (tree : List LFile)
    (hdry : a.dry_run = true) :
    (limpieza_main a stats tree).deleted = [] ∧
    (limpieza_main a stats tree).pruned = [] ∧
    (0 < a.max_delete → (∀ f ∈ tree, f.vanished = false) →
      (limpieza_main a stats tree).simulated =
        (limpieza_main ⟨a.exts, a.min_free_percent, a.min_free_gb, a.max_delete, false⟩
          stats tree).candidates) := by
  refine ⟨?_, ?_, ?_⟩
  · unfold limpieza_main
    dsimp only
    split
    · rfl
    · split
      · rfl
      · simpa using (cleanup_dry_pure a stats hdry _ [] [] []).1
  · unfold limpieza_main
    dsimp only
    split
    · rfl
    · split
      · rfl
      · simpa using (cleanup_dry_pure a stats hdry _ [] [] []).2
  · intro hmax hv
    rw [limpieza_candidates_dry_irrel a false stats tree]
    exact (limpieza_dry_sim_eq_candidates a stats tree hdry hmax hv).1

/-- C7 witness: the amended statement evaluated on a dry run with the
default 500-file cap over a single eligible file. -/
theorem C7_witness :
    (limpieza_main retargs_dry500 stats_unmet [demo_file 0]).deleted = [] ∧
    (limpieza_main retargs_dry500 stats_unmet [demo_file 0]).pruned = [] ∧
    (limpieza_main retargs_dry500 stats_unmet [demo_file 0]).simulated =
      (limpieza_main ⟨retargs_dry500.exts, retargs_dry500.min_free_percent,
        retargs_dry500.min_free_gb, retargs_dry500.max_delete, false⟩ stats_unmet
        [demo_file 0]).candidates := by
  obtain ⟨h1, h2, h3⟩ := C7_spec retargs_dry500 stats_unmet [demo_file 0] rfl
  exact ⟨h1, h2, h3 (by decide) (by decide)⟩

/-- C8: stopping the active capture process first requests graceful
termination, then waits with the fixed 10-second timeout, and appends a
forced kill exactly when the process does not exit within that timeout —
both in app.py `terminate_ffmpeg` and in tui_app.py `Recorder.stop` — and
`Recorder.stop` is idempotent: with the stop flag already set it is a
no-op, so a second stop performs no action and leaves the state
unchanged. -/
theorem C8_spec (p : ProcH) (r : Recorder) :
    (p.running = true →
      terminate_ffmpeg (some p) =
        TermAct.terminate :: TermAct.wait 10 ::
          (if p.exitsWithinTimeout then [] else [TermAct.kill])) ∧
    (TermAct.kill ∈ terminate_ffmpeg (some p) ↔
      p.running = true ∧ p.exitsWithinTimeout = false) ∧
    (r.stop_flag = false → r.proc = some p → p.running = true →
      (r.stop).2 =
        TermAct.terminate :: TermAct.wait 10 ::
          (if p.exitsWithinTimeout then [] else [TermAct.kill, TermAct.wait 5]) ∧
      (TermAct.kill ∈ (r.stop).2 ↔ p.exitsWithinTimeout = false)) ∧
    (r.stop_flag = true → r.stop = (r, [])) ∧
    ((r.stop).1.stop = ((r.stop).1, [])) := by
  refine ⟨?_, ?_, ?_, ?_, ?_⟩
  · intro h
    cases he : p.exitsWithinTimeout <;> simp [terminate_ffmpeg, h, he]
  · cases hr : p.running <;> cases he : p.exitsWithinTimeout <;>
      simp [terminate_ffmpeg, hr, he]
  · intro hf hp hr
    cases he : p.exitsWithinTimeout <;>
      simp [Recorder.stop, hf, hp, hr, he]
  · intro hf
    simp [Recorder.stop, hf]
  · by_cases hf : r.stop_flag
    · simp [Recorder.stop, hf]
    · cases hp : r.proc with
      | none => simp [Recorder.stop, hf, hp]
      | some q =>
        cases hrun : q.running <;> cases he : q.exitsWithinTimeout <;>
          simp [Recorder.stop, hf, hp, hrun, he]

/-- C8 witness: a running process that ignores the graceful request gets
terminate, the 10-second wait, then kill, in both implementations. -/
theorem C8_witness :
    terminate_ffmpeg (some ⟨true, false⟩) =
      [TermAct.terminate, TermAct.wait 10, TermAct.kill] ∧
    ((⟨false, some ⟨true, false⟩⟩ : Recorder).stop).2 =
      [TermAct.terminate, TermAct.wait 10, TermAct.kill, TermAct.wait 5] := by
  obtain ⟨h1, _, h3, _, _⟩ := C8_spec ⟨true, false⟩ ⟨false, some ⟨true, false⟩⟩
  obtain ⟨h3a, _⟩ := h3 rfl rfl rfl
  exact ⟨(h1 rfl).trans (by decide), h3a.trans (by decide)⟩

/-- C9: the dispatcher accepts any filename whose second
underscore-separated field splits into exactly three dash-separated
parts — no calendar validation is applied — and for a month number absent
from `MESES_ES` the upload proceeds with the raw month string in the
object key. -/
theorem C9_spec (filename fecha : String)
    (hf : (pySplit (fun c => c = '_') filename).get? 1 = some fecha) :
    ∀ anio mes dia : String, pySplit (fun c => c = '-') fecha = [anio, mes, dia] →
      parse_fecha filename = some (anio, mes, dia) ∧
      (MESES_ES.lookup mes = none →
        upload_to_minio true true filename =
          (UploadOutcome.uploaded,
            [anio ++ "/" ++ mes ++ "/" ++ dia ++ "/" ++ filename])) := by
  intro anio mes dia hsplit
  have hp : parse_fecha filename = some (anio, mes, dia) := by
    simp only [parse_fecha, hf, hsplit]
  refine ⟨hp, fun hm => ?_⟩
  simp [upload_to_minio, hp, upload_key, hm]

/-- C9 witness: month field `13` is not a calendar month and not in
`MESES_ES`, yet the file is uploaded, with raw `13` in the key. -/
theorem C9_witness :
    parse_fecha "Foo_9999-13-99_bar.mp4" = some ("9999", "13", "99") ∧
    upload_to_minio true true "Foo_9999-13-99_bar.mp4" =
      (UploadOutcome.uploaded, ["9999/13/99/Foo_9999-13-99_bar.mp4"]) := by
  obtain ⟨h1, h2⟩ := C9_spec "Foo_9999-13-99_bar.mp4" "9999-13-99" (by decide)
    "9999" "13" "99" (by decide)
  exact ⟨h1, (h2 (by decide)).trans (by decide)⟩

/-- C10, counterexample: with `--max-delete 0` the cap check
`deleted_count >= max_delete` stops even a dry-run loop immediately, so
although the thresholds are unmet and one eligible candidate exists, the
dry run reports nothing. -/
theorem C10_cex :
    needs_cleanup (stats_unmet []).2 (stats_unmet []).1 retargs_dry0.min_free_percent
        retargs_dry0.min_free_gb = true ∧
    (limpieza_main retargs_dry0 stats_unmet [demo_file_b]).candidates = [demo_file_b] ∧
    (limpieza_main retargs_dry0 stats_unmet [demo_file_b]).simulated = [] := by
  decide

/-- C10 (amended): in dry-run mode the deletion counter is never
incremented, so for every positive cap the cap never stops the loop: the
dry run reports exactly the full ordered candidate list (all eligible,
non-vanishing files) with no cap warning, even when the candidate count
exceeds `max_delete`, whereas the corresponding real pass deletes at most
`max_delete` files. -/
theorem C10_spec (a : RetArgs) (stats : List LFile → ℚ × ℚ) (tree : List LFile)
    (hdry : a.dry_run = true) (hmax : 0 < a.max_delete)
    (hv : ∀ f ∈ tree, f.vanished = false) :
    (limpieza_main a stats tree).simulated = (limpieza_main a stats tree).candidates ∧
    (limpieza_main a stats tree).capWarn = false ∧
    (limpieza_main ⟨a.exts, a.min_free_percent, a.min_free_gb, a.max_delete, false⟩ stats
        tree).deleted.length ≤ a.max_delete := by
  obtain ⟨h1, h2⟩ := limpieza_dry_sim_eq_candidates a stats tree hdry hmax hv
  exact ⟨h1, h2, limpieza_deleted_le _ stats tree⟩

/-- C10 witness: a dry run with cap 1 over two eligible files reports
both candidates and fires no cap warning. -/
theorem C10_witness :
    (limpieza_main retargs_dry1 stats_unmet [demo_file 0, demo_file_b]).simulated =
      (limpieza_main retargs_dry1 stats_unmet [demo_file 0, demo_file_b]).candidates ∧
    (limpieza_main retargs_dry1 stats_unmet [demo_file 0, demo_file_b]).capWarn = false := by
  obtain ⟨h1, h2, _⟩ := C10_spec retargs_dry1 stats_unmet [demo_file 0, demo_file_b]
    rfl (by decide) (by decide)
  exact ⟨h1, h2⟩

end IpCam
